import Mathlib

/-!
# Verification of `statistical_codec.go` (syncodec)

Shallow embedding of the statistical codec from the syncodec repository,
together with theorems settling the specification claims about it.

Modelling conventions:

* Go `int` and `time.Duration` (an `int64` count of nanoseconds) are modelled
  as `Int`.  None of the quantities appearing in the claims approach the
  64-bit overflow boundary, so wrap-around is not modelled.
* Go integer division truncates toward zero, which is `Int.tdiv` in Lean
  (not `/`, which is Euclidean on `Int`).
* Go `float64` values produced by the noisers are modelled as exact rationals
  (`ℚ`): every `float64` value is a dyadic rational, and the arithmetic the
  generator performs on them (`*`, `-`, `max`) is modelled exactly.  The
  conversion `int(x)` of a `float64` to an integer truncates toward zero,
  modelled by `truncQ` below.  `math.Log` forces real numbers, so the noise
  sampler itself is modelled over `ℝ`.
* The expression `time.Duration((1.0/float64(c.fps))*1000.0)` is modelled as
  the exact rational `1000/fps` truncated toward zero, i.e. `Int.tdiv 1000
  c.fps`.  For every frame rate relevant to the claims the `float64`
  computation yields the same integer.  For `fps = 0` the Go expression is an
  out-of-range conversion of `+Inf` whose result is unspecified; no claim
  depends on that value (with `fps = 0` a frame is only ever returned through
  the burst-start branch, and the claims about it concern its size).
* A Go panic (integer division by zero at line 172 or 175, `make` with a
  negative length, closing an already-closed channel) is modelled by `none`.
* The pseudo-random draws of the two noisers are passed to `nextFrame` as
  explicit parameters (the deviation values `sizeNoise` and `durNoise`,
  i.e. the results of `c.frameSizeNoiser.noise()` and
  `c.frameDurationNoiser.noise()`), making the generator a pure function of
  the state and the draws.
* The `Start` event loop owns the mutable state.  Each `select` arm is
  modelled as a `LoopEvent`; which ready arm the Go runtime services next is
  an external choice, so `startStep` consumes one event at a time.  The
  `done` channel is modelled by the `doneClosed` flag: a receive on `done`
  only ever completes once the channel has been closed.
* The frame sink (`FrameWriter`) and the mutex are external to the state
  machine: `WriteFrame` does not touch codec state, and the lock only guards
  the field reads/writes that are modelled directly.
-/

namespace Syncodec

/-- A produced video frame.  The `Frame` type lives in the repository's
interface file (not part of the excerpt); following the spec's data model it
is a byte slice `Content` together with a `Duration`.  Only the length of
`Content` is ever meaningful (`make([]byte, n)` produces `n` zero bytes), so
the slice is modelled by its length; the duration is in nanoseconds. -/
structure Frame where
  contentLen : Int
  durationNs : Int
  deriving DecidableEq

/-- Defaults from the `const` block (lines 14–26). -/
def defaultTargetBitrateBps : Int := 100000000

/-- Default frames per second. -/
def defaultFPS : Int := 30

/-- Default reaction latency `tau`: 200 ms, in nanoseconds. -/
def defaultTau : Int := 200000000

/-- Default burst duration of the transient period, in frames. -/
def defaultBurstFrameCount : Int := 8

/-- Default burst frame size, in bytes. -/
def defaultBurstFrameSize : Int := 13500

/-- Default reference frame interval `t0`: 33 ms, in nanoseconds. -/
def defaultT0 : Int := 33000000

/-- Default reference frame size `b0`, in bytes. -/
def defaultB0 : Int := 4170

/-- Default scale of the frame-interval noise distribution. -/
def defaultScaleT : ℚ := 15 / 100

/-- Default scale of the frame-size noise distribution. -/
def defaultScaleB : ℚ := 15 / 100

/-- Default minimum rate, in bits per second. -/
def defaultRMin : Int := 150000

/-- Default maximum rate, in bits per second. -/
def defaultRMax : Int := 150000000

/-- The state of a `StatisticalCodec` (struct at lines 48–99).  The writer,
the mutex, the two noiser objects and the channel values themselves are not
part of the modelled state: the noise draws are passed as parameters, the
`targetBitrateChan` and `done` channels are modelled by the loop events below,
and `doneClosed` records whether `close(c.done)` has happened. -/
structure StatisticalCodec where
  targetBitrateBps : Int
  fps : Int
  tau : Int
  burstFrameCount : Int
  burstFrameSize : Int
  t0 : Int
  b0 : Int
  scaleT : ℚ
  scaleB : ℚ
  rMin : Int
  rMax : Int
  lastTargetBitrateUpdate : Int
  remainingBurstFrames : Int
  doneClosed : Bool
  deriving DecidableEq

/-- `StatisticalCodecOption` (line 101): `func(*StatisticalCodec) error`,
modelled as a function returning either an error or the updated codec. -/
def StatisticalCodecOption := StatisticalCodec → Except Unit StatisticalCodec

/-- `WithFramesPerSecond` (lines 103–108): sets `fps` and always returns a
nil error — the value is not validated. -/
def WithFramesPerSecond (fps : Int) : StatisticalCodecOption :=
  fun sc => Except.ok { sc with fps := fps }

/-- The struct literal built by `NewStatisticalEncoder` before options are
applied (lines 111–137): all fields at their defaults, the zero
`lastTargetBitrateUpdate` timestamp, no pending burst frames, and an open
`done` channel. -/
def defaultStatisticalCodec : StatisticalCodec where
  targetBitrateBps := defaultTargetBitrateBps
  fps := defaultFPS
  tau := defaultTau
  burstFrameCount := defaultBurstFrameCount
  burstFrameSize := defaultBurstFrameSize
  t0 := defaultT0
  b0 := defaultB0
  scaleT := defaultScaleT
  scaleB := defaultScaleB
  rMin := defaultRMin
  rMax := defaultRMax
  lastTargetBitrateUpdate := 0
  remainingBurstFrames := 0
  doneClosed := false

/-- The option-application loop of `NewStatisticalEncoder` (lines 139–143):
on the first option returning an error the constructor returns that error. -/
def applyOptions : List StatisticalCodecOption → StatisticalCodec →
    Except Unit StatisticalCodec
  | [], sc => Except.ok sc
  | opt :: rest, sc =>
    match opt sc with
    | Except.error e => Except.error e
    | Except.ok sc2 => applyOptions rest sc2

/-- `NewStatisticalEncoder` (lines 110–146).  `Except.ok` corresponds to a
non-nil `*StatisticalCodec` together with a nil error. -/
def NewStatisticalEncoder (opts : List StatisticalCodecOption) :
    Except Unit StatisticalCodec :=
  applyOptions opts defaultStatisticalCodec

/-- `GetTargetBitrate` (lines 149–154): reads `targetBitrateBps` under the
lock. -/
def GetTargetBitrate (c : StatisticalCodec) : Int :=
  c.targetBitrateBps

/-- `SetTargetBitrate` (lines 157–159): assigns `c.targetBitrateBps = r`
directly.  Note that the source neither takes the lock, nor sends on
`targetBitrateChan`, nor consults `lastTargetBitrateUpdate`/`tau`. -/
def SetTargetBitrate (c : StatisticalCodec) (r : Int) : StatisticalCodec :=
  { c with targetBitrateBps := r }

/-- Truncation of a rational toward zero: the model of Go's `float64` → `int`
(or → `time.Duration`) conversion. -/
def truncQ (q : ℚ) : Int :=
  q.num.tdiv q.den

/-- `nextFrame` (lines 162–190), as a pure function of the codec state and
the two noise draws.  `none` models a panic: division by zero when
`c.fps = 0` (line 172, evaluated before the burst-continuation branch) or
when `burstFrameSize + burstFrameCount - 1 = 0` (line 175), and
`make([]byte, n)` with `n < 0` (lines 167, 178; the steady-state branch's
length is floored at 1 and cannot be negative). -/
def nextFrame (c : StatisticalCodec) (sizeNoise durNoise : ℚ) : Option Frame :=
  let duration : Int := Int.tdiv 1000 c.fps * 1000000
  if c.remainingBurstFrames = c.burstFrameCount then
    if c.burstFrameSize < 0 then none
    else some { contentLen := c.burstFrameSize, durationNs := duration }
  else if c.fps = 0 then none
  else
    let bytesPerFrame : Int := Int.tdiv c.targetBitrateBps (8 * c.fps)
    if 0 < c.remainingBurstFrames then
      if c.burstFrameSize + (c.burstFrameCount - 1) = 0 then none
      else
        let size : Int :=
          Int.tdiv (c.targetBitrateBps * c.burstFrameCount)
            (c.burstFrameSize + (c.burstFrameCount - 1))
        if size < 0 then none
        else some { contentLen := size, durationNs := duration }
    else
      let noisedBytesPerFrame : ℚ := max 1 ((bytesPerFrame : ℚ) * (1 - sizeNoise))
      let noisedDuration : ℚ := max 0 ((duration : ℚ) * (1 - durNoise))
      some { contentLen := truncQ noisedBytesPerFrame
             durationNs := truncQ noisedDuration }

/-- One wake source of the `Start` event loop (lines 193–216): a timer fire
(carrying the two noise draws the generated frame will consume), an incoming
value on `targetBitrateChan` (carrying the requested rate and the current
wall-clock time used by `time.Since`/`time.Now`), or a receive on `done`. -/
inductive LoopEvent where
  | timerFire (sizeNoise durNoise : ℚ)
  | rateRequest (rate : Int) (now : Int)
  | doneSignal
  deriving DecidableEq

/-- The state mutation of the accepted-update path (lines 206–210):
store the rate, stamp the acceptance time, rearm the burst counter. -/
def applyRateUpdate (c : StatisticalCodec) (rate now : Int) : StatisticalCodec :=
  { c with
    targetBitrateBps := rate
    lastTargetBitrateUpdate := now
    remainingBurstFrames := c.burstFrameCount }

/-- One iteration of the `Start` select loop (lines 195–215) servicing the
given ready event.  The result is the new codec state, the frame written to
the sink (if any), and whether the loop keeps running; `none` models a panic
inside `nextFrame`.  The timer arm generates and emits a frame and mutates no
state; the rate arm drops the request when `now - lastTargetBitrateUpdate <
tau` and otherwise applies it; a receive on `done` only completes when the
channel is closed, and then returns from `Start`. -/
def startStep (c : StatisticalCodec) :
    LoopEvent → Option (StatisticalCodec × Option Frame × Bool)
  | LoopEvent.timerFire sn dn =>
    match nextFrame c sn dn with
    | none => none
    | some f => some (c, some f, true)
  | LoopEvent.rateRequest rate now =>
    if now - c.lastTargetBitrateUpdate < c.tau then some (c, none, true)
    else some (applyRateUpdate c rate now, none, true)
  | LoopEvent.doneSignal =>
    if c.doneClosed then some (c, none, false) else some (c, none, true)

/-- `Close` (lines 219–222): `close(c.done); return nil`.  Closing an
already-closed channel panics, modelled by `none`; otherwise the result is
the new state together with the returned error (`none` = nil). -/
def Close (c : StatisticalCodec) : Option (StatisticalCodec × Option Unit) :=
  if c.doneClosed then none
  else some ({ c with doneClosed := true }, none)

/-- `laplaceNoise.noise` (lines 37–44) as a function of the scale and the two
uniform draws `u1 = l.rnd.Float64()` and `u2 = l.rnd.Float64()`:
`e1 - e2` with `e1 = -scale·log u1` and `e2 = -scale·log u2`. -/
noncomputable def laplaceNoiseValue (scale u1 u2 : ℝ) : ℝ :=
  let e1 := -scale * Real.log u1
  let e2 := -scale * Real.log u2
  e1 - e2

/-! ## Helper lemmas about `truncQ` -/

/-- Truncation of an integer-valued rational is the integer itself. -/
theorem truncQ_intCast (n : Int) : truncQ (n : ℚ) = n := by
  simp [truncQ, Rat.num_intCast, Rat.den_intCast]

/-- Truncation of a nonnegative rational is nonnegative. -/
theorem truncQ_nonneg {q : ℚ} (h : 0 ≤ q) : 0 ≤ truncQ q :=
  Int.tdiv_nonneg (Rat.num_nonneg.mpr h) (by positivity)

/-- On nonnegative rationals truncation toward zero agrees with the floor. -/
theorem truncQ_eq_floor {q : ℚ} (h : 0 ≤ q) : truncQ q = ⌊q⌋ := by
  rw [truncQ, Int.tdiv_eq_ediv (Rat.num_nonneg.mpr h) (by positivity),
    Rat.floor_def]

/-- Truncation of a rational that is at least one is at least one. -/
theorem one_le_truncQ {q : ℚ} (h : 1 ≤ q) : 1 ≤ truncQ q := by
  rw [truncQ_eq_floor (le_trans zero_le_one h)]
  exact Int.le_floor.mpr (by exact_mod_cast h)

/-- Truncating `max 1 n` for an integer `n` yields `max 1 n`. -/
theorem truncQ_max_one_intCast (n : Int) :
    truncQ (max 1 ((n : Int) : ℚ)) = max 1 n := by
  have h : (max 1 ((n : Int) : ℚ)) = ((max 1 n : Int) : ℚ) := by
    push_cast
    rfl
  rw [h, truncQ_intCast]

/-- Truncating `max 0 n` for a nonnegative integer `n` yields `n`. -/
theorem truncQ_max_zero_intCast {n : Int} (h : 0 ≤ n) :
    truncQ (max 0 ((n : Int) : ℚ)) = n := by
  rw [max_eq_right (by exact_mod_cast h), truncQ_intCast]

/-! ## Helper lemmas about `nextFrame` -/

/-- Burst-start evaluation: whenever the burst counter equals
`burstFrameCount` and `burstFrameSize` is nonnegative, the generated frame is
the fixed `burstFrameSize`-byte frame with the nominal duration, for any
noise draws. -/
theorem nextFrame_burst_start {c : StatisticalCodec} (sn dn : ℚ)
    (hb : c.remainingBurstFrames = c.burstFrameCount)
    (hs : 0 ≤ c.burstFrameSize) :
    nextFrame c sn dn =
      some { contentLen := c.burstFrameSize
             durationNs := Int.tdiv 1000 c.fps * 1000000 } := by
  rw [nextFrame, if_pos hb, if_neg (not_lt.mpr hs)]

/-- Steady-state evaluation with zero noise draws: the frame length is
`targetBitrateBps / (8·fps)` floored at one, and the duration is the nominal
`⌊1000/fps⌋` milliseconds. -/
theorem nextFrame_steady_zero_noise {c : StatisticalCodec}
    (h0 : c.remainingBurstFrames = 0) (hbc : c.burstFrameCount ≠ 0)
    (hfps : 0 < c.fps) :
    nextFrame c 0 0 =
      some { contentLen := max 1 (Int.tdiv c.targetBitrateBps (8 * c.fps))
             durationNs := Int.tdiv 1000 c.fps * 1000000 } := by
  have hd : (0 : Int) ≤ Int.tdiv 1000 c.fps * 1000000 :=
    mul_nonneg (Int.tdiv_nonneg (by norm_num) (le_of_lt hfps)) (by norm_num)
  rw [nextFrame, if_neg (by rw [h0]; exact fun h => hbc h.symm),
    if_neg (by exact ne_of_gt hfps), if_neg (by rw [h0]; exact lt_irrefl 0)]
  have hsz : max 1 (((Int.tdiv c.targetBitrateBps (8 * c.fps) : Int) : ℚ) * (1 - 0)) =
      max 1 ((Int.tdiv c.targetBitrateBps (8 * c.fps) : Int) : ℚ) := by
    norm_num
  have hdr : max 0 (((Int.tdiv 1000 c.fps * 1000000 : Int) : ℚ) * (1 - 0)) =
      max 0 ((Int.tdiv 1000 c.fps * 1000000 : Int) : ℚ) := by
    norm_num
  rw [hsz, hdr]
  simp only [truncQ_max_one_intCast, truncQ_max_zero_intCast hd]

/-- Burst-continuation evaluation: with `0 < remainingBurstFrames <
burstFrameCount`, a positive frame rate and nonnegative bitrate and burst
frame size, the generated frame has the redistributed size
`(targetBitrateBps · burstFrameCount) / (burstFrameSize + burstFrameCount −
1)` and the nominal duration, for any noise draws. -/
theorem nextFrame_burst_continuation {c : StatisticalCodec} (sn dn : ℚ)
    (h1 : 0 < c.remainingBurstFrames)
    (h2 : c.remainingBurstFrames < c.burstFrameCount)
    (hfps : 0 < c.fps) (hbr : 0 ≤ c.targetBitrateBps)
    (hbfs : 0 ≤ c.burstFrameSize) :
    nextFrame c sn dn =
      some { contentLen := Int.tdiv (c.targetBitrateBps * c.burstFrameCount)
               (c.burstFrameSize + (c.burstFrameCount - 1))
             durationNs := Int.tdiv 1000 c.fps * 1000000 } := by
  have hden : ¬ c.burstFrameSize + (c.burstFrameCount - 1) = 0 := by omega
  have hsz : ¬ Int.tdiv (c.targetBitrateBps * c.burstFrameCount)
      (c.burstFrameSize + (c.burstFrameCount - 1)) < 0 :=
    not_lt.mpr (Int.tdiv_nonneg (mul_nonneg hbr (by omega)) (by omega))
  rw [nextFrame, if_neg (ne_of_lt h2), if_neg (ne_of_gt hfps), if_pos h1,
    if_neg hden, if_neg hsz]

/-- Frame bounds on the states the loop can actually reach
(`remainingBurstFrames` is only ever 0 or `burstFrameCount`): with a positive
frame rate and a positive burst frame size, `nextFrame` returns a frame (no
panic) of length at least one byte and nonnegative duration, for arbitrary
noise draws. -/
theorem nextFrame_bounds {c : StatisticalCodec} (sn dn : ℚ)
    (hfps : 0 < c.fps) (hbfs : 1 ≤ c.burstFrameSize)
    (hstate : c.remainingBurstFrames = 0 ∨
      c.remainingBurstFrames = c.burstFrameCount) :
    ∃ f, nextFrame c sn dn = some f ∧ 1 ≤ f.contentLen ∧ 0 ≤ f.durationNs := by
  have hd : (0 : Int) ≤ Int.tdiv 1000 c.fps * 1000000 :=
    mul_nonneg (Int.tdiv_nonneg (by norm_num) (le_of_lt hfps)) (by norm_num)
  by_cases hb : c.remainingBurstFrames = c.burstFrameCount
  · exact ⟨_, nextFrame_burst_start sn dn hb (le_trans zero_le_one hbfs),
      hbfs, hd⟩
  · rcases hstate with h0 | h0
    · rw [nextFrame, if_neg hb, if_neg (ne_of_gt hfps),
        if_neg (by rw [h0]; exact lt_irrefl 0)]
      exact ⟨_, rfl, one_le_truncQ (le_max_left _ _),
        truncQ_nonneg (le_max_left _ _)⟩
    · exact absurd h0 hb

/-! ## The claims -/

/-- C1 (code_bug, divergence exhibited): the claim says that of two update
requests submitted less than `tau` apart only the first is applied and
`GetTargetBitrate` keeps returning the first value.  In the code,
`SetTargetBitrate` assigns the field directly and never sends on
`targetBitrateChan`, so the `tau` guard in `Start` is never consulted: two
back-to-back calls (zero time apart) both take effect and `GetTargetBitrate`
returns the second value. -/
theorem c1_second_request_overwrites :
    GetTargetBitrate
      (SetTargetBitrate (SetTargetBitrate defaultStatisticalCodec 1000000)
        2000000) = 2000000 ∧
    (2000000 : Int) ≠ 1000000 :=
  ⟨rfl, by decide⟩

/-- C2 (code_bug, divergence exhibited): the claim says `SetTargetBitrate`
only enqueues a request and leaves the bitrate state unchanged.  In the code
a single call mutates `targetBitrateBps` immediately (from the default
100000000 to the argument 42), enqueuing nothing. -/
theorem c2_setTargetBitrate_mutates_directly :
    (SetTargetBitrate defaultStatisticalCodec 42).targetBitrateBps = 42 ∧
    defaultStatisticalCodec.targetBitrateBps = 100000000 ∧
    (42 : Int) ≠ 100000000 :=
  ⟨rfl, rfl, by decide⟩

/-- C3 (code_bug, divergence exhibited): the claim says each emitted burst
frame decrements `remainingBurstFrames` until the engine returns to steady
state after `burstFrameCount` burst frames.  In the code an accepted update
sets the counter to `burstFrameCount` (8) and no path ever decrements it:
servicing a timer fire emits a burst-start frame and returns the state
unchanged (the equation below returns the identical state, so by iteration
every subsequent frame is again the 13500-byte burst frame, forever). -/
theorem c3_burst_counter_never_decremented :
    startStep defaultStatisticalCodec (LoopEvent.rateRequest 5000000 1000000000) =
      some (applyRateUpdate defaultStatisticalCodec 5000000 1000000000, none, true) ∧
    (applyRateUpdate defaultStatisticalCodec 5000000 1000000000).remainingBurstFrames = 8 ∧
    startStep (applyRateUpdate defaultStatisticalCodec 5000000 1000000000)
        (LoopEvent.timerFire 0 0) =
      some (applyRateUpdate defaultStatisticalCodec 5000000 1000000000,
        some { contentLen := 13500, durationNs := 33000000 }, true) :=
  ⟨rfl, rfl, rfl⟩

/-- C4 (confirmed): after any accepted bitrate update, the next generated
frame has length exactly `burstFrameSize` and the nominal duration
`⌊1000/fps⌋` milliseconds, independently of the noise draws. -/
theorem c4_first_frame_after_accepted_update (c : StatisticalCodec)
    (r now : Int) (sn dn : ℚ)
    (hacc : c.tau ≤ now - c.lastTargetBitrateUpdate)
    (hbfs : 0 ≤ c.burstFrameSize) :
    startStep c (LoopEvent.rateRequest r now) =
      some (applyRateUpdate c r now, none, true) ∧
    nextFrame (applyRateUpdate c r now) sn dn =
      some { contentLen := c.burstFrameSize
             durationNs := Int.tdiv 1000 c.fps * 1000000 } := by
  constructor
  · simp only [startStep]
    rw [if_neg (not_lt.mpr hacc)]
  · exact nextFrame_burst_start sn dn rfl hbfs

/-- C4 witness: the default codec accepts an update at t = 1 s and the next
frame is the 13500-byte burst frame with 33 ms duration, under nonzero noise
draws. -/
theorem c4_witness :
    startStep defaultStatisticalCodec (LoopEvent.rateRequest 5000000 1000000000) =
      some (applyRateUpdate defaultStatisticalCodec 5000000 1000000000, none, true) ∧
    nextFrame (applyRateUpdate defaultStatisticalCodec 5000000 1000000000) 5 7 =
      some { contentLen := 13500, durationNs := 33000000 } := by
  have h := c4_first_frame_after_accepted_update defaultStatisticalCodec
    5000000 1000000000 5 7 (by decide) (by decide)
  exact ⟨h.1, h.2.trans (by decide)⟩

/-- C5 counterexample: with `targetBitrateBps = 0` (updates are not clamped
to `[rMin, rMax]`) and `fps = 30`, the steady-state noiseless frame has
length 1 byte, while the claim's formula `targetBitrateBps / (8·fps)` gives
0 — the `max(1, ·)` floor, which the claim omits, engages. -/
theorem c5_counterexample :
    nextFrame { defaultStatisticalCodec with targetBitrateBps := 0 } 0 0 =
      some { contentLen := 1, durationNs := 33000000 } ∧
    Int.tdiv 0 (8 * 30) = 0 ∧ (1 : Int) ≠ 0 := by
  refine ⟨?_, by decide, by decide⟩
  rw [nextFrame_steady_zero_noise rfl (by decide) (by decide)]
  decide

/-- C5 (amended): in steady state with both noise draws zero, every generated
frame has length exactly `max 1 (targetBitrateBps / (8·fps))` — that is,
exactly `targetBitrateBps / (8·fps)` whenever that integer quotient is at
least one — and duration exactly `⌊1000/fps⌋` milliseconds. -/
theorem c5_steady_noiseless_frame (c : StatisticalCodec)
    (h0 : c.remainingBurstFrames = 0) (hbc : c.burstFrameCount ≠ 0)
    (hfps : 0 < c.fps) :
    nextFrame c 0 0 =
      some { contentLen := max 1 (Int.tdiv c.targetBitrateBps (8 * c.fps))
             durationNs := Int.tdiv 1000 c.fps * 1000000 } :=
  nextFrame_steady_zero_noise h0 hbc hfps

/-- C5 witness: the claim's own scenario — `targetBitrateBps = 1000000`,
`fps = 30`, zero noise — gives frames of exactly 4166 bytes and 33 ms. -/
theorem c5_witness :
    nextFrame { defaultStatisticalCodec with targetBitrateBps := 1000000 } 0 0 =
      some { contentLen := 4166, durationNs := 33000000 } := by
  have h := c5_steady_noiseless_frame
    { defaultStatisticalCodec with targetBitrateBps := 1000000 }
    rfl (by decide) (by decide)
  exact h.trans (by decide)

/-- C6 (confirmed): whenever `0 < remainingBurstFrames < burstFrameCount`
(with the configuration invariants `fps > 0`, nonnegative bitrate and burst
frame size), the generated frame has exactly the reference size
`(targetBitrateBps · burstFrameCount) / (burstFrameSize + burstFrameCount −
1)` and the same nominal duration as the burst-start frame. -/
theorem c6_burst_continuation_size (c : StatisticalCodec) (sn dn : ℚ)
    (h1 : 0 < c.remainingBurstFrames)
    (h2 : c.remainingBurstFrames < c.burstFrameCount)
    (hfps : 0 < c.fps) (hbr : 0 ≤ c.targetBitrateBps)
    (hbfs : 0 ≤ c.burstFrameSize) :
    nextFrame c sn dn =
      some { contentLen := Int.tdiv (c.targetBitrateBps * c.burstFrameCount)
               (c.burstFrameSize + (c.burstFrameCount - 1))
             durationNs := Int.tdiv 1000 c.fps * 1000000 } :=
  nextFrame_burst_continuation sn dn h1 h2 hfps hbr hbfs

/-- C6 witness: the default configuration with 3 remaining burst frames
yields `(100000000·8)/(13500+7) = 59228` bytes and 33 ms, under nonzero
noise draws. -/
theorem c6_witness :
    nextFrame { defaultStatisticalCodec with remainingBurstFrames := 3 } 5 7 =
      some { contentLen := 59228, durationNs := 33000000 } := by
  have h := c6_burst_continuation_size
    { defaultStatisticalCodec with remainingBurstFrames := 3 } 5 7
    (by decide) (by decide) (by decide) (by decide) (by decide)
  exact h.trans (by decide)

/-- C7 counterexample: in the burst-continuation branch (which has no
`max` floor) the default configuration with a current bitrate of 1000 bps
produces a frame of length `(1000·8)/13507 = 0 < 1` bytes, refuting
"every frame has size at least 1 byte in all three branches". -/
theorem c7_counterexample :
    nextFrame { defaultStatisticalCodec with
        targetBitrateBps := 1000, remainingBurstFrames := 1 } 0 0 =
      some { contentLen := 0, durationNs := 33000000 } ∧
    ¬ (1 : Int) ≤ 0 :=
  ⟨rfl, by decide⟩

/-- C7 (amended): on every state the loop can reach (`remainingBurstFrames`
is only ever 0 or `burstFrameCount`, so the unfloored burst-continuation
branch is dead code), with the configuration invariants `fps > 0` and
`burstFrameSize ≥ 1`, `nextFrame` never panics and every frame has length at
least 1 byte and nonnegative duration, for every noise draw. -/
theorem c7_reachable_frame_bounds (c : StatisticalCodec) (sn dn : ℚ)
    (hfps : 0 < c.fps) (hbfs : 1 ≤ c.burstFrameSize)
    (hstate : c.remainingBurstFrames = 0 ∨
      c.remainingBurstFrames = c.burstFrameCount) :
    ∃ f, nextFrame c sn dn = some f ∧ 1 ≤ f.contentLen ∧ 0 ≤ f.durationNs :=
  nextFrame_bounds sn dn hfps hbfs hstate

/-- C7 witness: the default codec under an extreme size-noise draw (5, so
the multiplier `1 − 5` is negative) still emits a frame of length ≥ 1 and
duration ≥ 0. -/
theorem c7_witness :
    ∃ f, nextFrame defaultStatisticalCodec 5 7 = some f ∧
      1 ≤ f.contentLen ∧ 0 ≤ f.durationNs :=
  c7_reachable_frame_bounds defaultStatisticalCodec 5 7 (by decide) (by decide)
    (Or.inl rfl)

/-- C8 counterexample: scale `-1 ≤ 0` with the uniform draws `1/2, 1/4 ∈
(0,1)` gives `noise() = log 2 ≠ 0`, refuting "for every scale ≤ 0 the
distribution collapses to a point mass at 0". -/
theorem c8_counterexample :
    (-1 : ℝ) ≤ 0 ∧ (0 : ℝ) < 1/2 ∧ (1/2 : ℝ) < 1 ∧
    (0 : ℝ) < 1/4 ∧ (1/4 : ℝ) < 1 ∧
    laplaceNoiseValue (-1) (1/2) (1/4) ≠ 0 := by
  refine ⟨by norm_num, by norm_num, by norm_num, by norm_num, by norm_num, ?_⟩
  have hv : laplaceNoiseValue (-1) (1/2) (1/4) = Real.log 2 := by
    show -(-1) * Real.log (1/2) - -(-1) * Real.log (1/4) = Real.log 2
    rw [show (1/2 : ℝ) = (2 : ℝ)⁻¹ by norm_num,
      show (1/4 : ℝ) = ((2 : ℝ) ^ 2)⁻¹ by norm_num,
      Real.log_inv, Real.log_inv, Real.log_pow]
    push_cast
    ring
  rw [hv]
  exact ne_of_gt (Real.log_pos (by norm_num))

/-- C8 (amended): for scale exactly 0 every pair of draws yields exactly 0
(the distribution is a point mass at 0 and the call never fails), and in
general each call returns `-scale·ln(U1) − (−scale·ln(U2))`; for negative
scales the output is a nondegenerate Laplace-type variate. -/
theorem c8_zero_scale_point_mass :
    (∀ u1 u2 : ℝ, laplaceNoiseValue 0 u1 u2 = 0) ∧
    (∀ scale u1 u2 : ℝ, laplaceNoiseValue scale u1 u2 =
      -scale * Real.log u1 - -scale * Real.log u2) :=
  ⟨fun u1 u2 => by simp [laplaceNoiseValue], fun _ _ _ => rfl⟩

/-- C9 (confirmed): `NewStatisticalEncoder` with `WithFramesPerSecond fps`
succeeds (non-nil codec, nil error) for every integer `fps`, including 0 and
negative values — no invariant is enforced — and with `fps = 0` the
steady-state path of `nextFrame` hits the unguarded integer division
`targetBitrateBps / (8·fps)` and panics, for any noise draws. -/
theorem c9_constructor_accepts_any_fps :
    (∀ fps : Int, NewStatisticalEncoder [WithFramesPerSecond fps] =
      Except.ok { defaultStatisticalCodec with fps := fps }) ∧
    (∀ sn dn : ℚ,
      nextFrame { defaultStatisticalCodec with fps := 0 } sn dn = none) :=
  ⟨fun _ => rfl, fun _ _ => rfl⟩

/-- C10 (confirmed): on a codec whose `done` channel is still open, `Close`
returns a nil error and closes the channel; the loop then exits on its next
receive from `done`; and a second `Close` panics (close of a closed
channel). -/
theorem c10_close_then_close_panics (c : StatisticalCodec)
    (h : c.doneClosed = false) :
    Close c = some ({ c with doneClosed := true }, none) ∧
    startStep { c with doneClosed := true } LoopEvent.doneSignal =
      some ({ c with doneClosed := true }, none, false) ∧
    Close { c with doneClosed := true } = none :=
  ⟨by rw [Close, if_neg (by rw [h]; decide)], rfl, rfl⟩

/-- C10 witness: the freshly constructed codec. -/
theorem c10_witness :
    Close defaultStatisticalCodec =
      some ({ defaultStatisticalCodec with doneClosed := true }, none) ∧
    startStep { defaultStatisticalCodec with doneClosed := true }
        LoopEvent.doneSignal =
      some ({ defaultStatisticalCodec with doneClosed := true }, none, false) ∧
    Close { defaultStatisticalCodec with doneClosed := true } = none :=
  c10_close_then_close_panics defaultStatisticalCodec rfl

end Syncodec
